import Mathlib

/-!
Shallow embedding of the real-time presence and message-delivery subsystem of
the marketplace backend (src/config/socket.js and the message controller).
JS `Map` objects are modelled as association lists with functional update,
JS strings as `String`, socket ids as `Nat`, timestamps as `Nat`.
-/

namespace ChatCore

/-- Model of `Map.prototype.get`: value of the first matching key. -/
def mapGet {β : Type} : List (String × β) → String → Option β
  | [], _ => none
  | (k', v') :: rest, k => if k' = k then some v' else mapGet rest k

/-- Model of `Map.prototype.set`: replace the existing entry in place, or
append a fresh one (JS `Map` keys are unique, so at most one entry matches). -/
def mapSet {β : Type} : List (String × β) → String → β → List (String × β)
  | [], k, v => [(k, v)]
  | (k', v') :: rest, k, v =>
      if k' = k then (k, v) :: rest else (k', v') :: mapSet rest k v

/-- Model of `Map.prototype.delete`: remove the entry for the key. -/
def mapDelete {β : Type} : List (String × β) → String → List (String × β)
  | [], _ => []
  | (k', v') :: rest, k =>
      if k' = k then mapDelete rest k else (k', v') :: mapDelete rest k

/-- Number of entries stored under a key (a JS `Map` always has at most one). -/
def countKey {β : Type} : List (String × β) → String → Nat
  | [], _ => 0
  | (k', _) :: rest, k => (if k' = k then 1 else 0) + countKey rest k

theorem mapGet_mapSet_self {β : Type} (m : List (String × β)) (k : String) (v : β) :
    mapGet (mapSet m k v) k = some v := by
  induction m with
  | nil => simp [mapSet, mapGet]
  | cons p rest ih =>
    obtain ⟨k', v'⟩ := p
    by_cases h : k' = k
    · simp [mapSet, h, mapGet]
    · simp [mapSet, h, mapGet, ih]

theorem mapGet_mapSet_ne {β : Type} (m : List (String × β)) (k u : String) (v : β)
    (h : k ≠ u) : mapGet (mapSet m k v) u = mapGet m u := by
  induction m with
  | nil => simp [mapSet, mapGet, h]
  | cons p rest ih =>
    obtain ⟨k', v'⟩ := p
    by_cases hk : k' = k
    · subst hk
      simp [mapSet, mapGet, h]
    · by_cases hu : k' = u
      · subst hu
        simp [mapSet, hk, mapGet]
      · simp [mapSet, hk, mapGet, hu, ih]

theorem mapGet_mapDelete_self {β : Type} (m : List (String × β)) (k : String) :
    mapGet (mapDelete m k) k = none := by
  induction m with
  | nil => simp [mapDelete, mapGet]
  | cons p rest ih =>
    obtain ⟨k', v'⟩ := p
    by_cases h : k' = k
    · simp [mapDelete, h, ih]
    · simp [mapDelete, h, mapGet, ih]

theorem mapGet_mapDelete_ne {β : Type} (m : List (String × β)) (k u : String)
    (h : k ≠ u) : mapGet (mapDelete m k) u = mapGet m u := by
  induction m with
  | nil => simp [mapDelete]
  | cons p rest ih =>
    obtain ⟨k', v'⟩ := p
    by_cases hk : k' = k
    · subst hk
      simp [mapDelete, mapGet, h, ih]
    · by_cases hu : k' = u
      · subst hu
        simp [mapDelete, hk, mapGet]
      · simp [mapDelete, hk, mapGet, hu, ih]

theorem countKey_mapSet_ne {β : Type} (m : List (String × β)) (k u : String) (v : β)
    (h : k ≠ u) : countKey (mapSet m k v) u = countKey m u := by
  induction m with
  | nil =>
    simp only [mapSet, countKey]
    simp [h]
  | cons p rest ih =>
    obtain ⟨k', v'⟩ := p
    by_cases hk : k' = k
    · subst hk
      simp only [mapSet, if_pos rfl, countKey]
    · simp only [mapSet, if_neg hk, countKey, ih]

theorem countKey_mapSet_self {β : Type} (m : List (String × β)) (k : String) (v : β) :
    countKey (mapSet m k v) k ≤ max 1 (countKey m k) := by
  induction m with
  | nil =>
    simp [mapSet, countKey]
  | cons p rest ih =>
    obtain ⟨k', v'⟩ := p
    by_cases hk : k' = k
    · subst hk
      simp only [mapSet, if_pos rfl, countKey, if_pos rfl]
      omega
    · simp only [mapSet, if_neg hk, countKey, if_neg hk]
      omega

theorem countKey_mapSet {β : Type} (m : List (String × β)) (k u : String) (v : β) :
    countKey (mapSet m k v) u ≤ max 1 (countKey m u) := by
  by_cases h : k = u
  · subst h
    exact countKey_mapSet_self m k v
  · rw [countKey_mapSet_ne m k u v h]
    omega

theorem countKey_mapDelete {β : Type} (m : List (String × β)) (k u : String) :
    countKey (mapDelete m k) u ≤ countKey m u := by
  induction m with
  | nil => simp [mapDelete]
  | cons p rest ih =>
    obtain ⟨k', v'⟩ := p
    by_cases hk : k' = k
    · subst hk
      simp only [mapDelete, if_pos rfl, countKey]
      split_ifs <;> omega
    · simp only [mapDelete, if_neg hk, countKey]
      split_ifs <;> omega

/-- Lexicographic `≤` on char lists by code unit: the order the default JS
`Array.prototype.sort` comparator applies to two strings. -/
def strLeChars : List Char → List Char → Bool
  | [], _ => true
  | _ :: _, [] => false
  | c :: cs, d :: ds =>
      if c.toNat < d.toNat then true
      else if d.toNat < c.toNat then false
      else strLeChars cs ds

/-- The `conversationId` as computed by the send path
(`[senderId, recipient].sort().join('_')`, part_000 line 367): the two
identities sorted lexicographically and joined with `'_'`. -/
def convId (a b : String) : String :=
  if strLeChars a.data b.data then a ++ "_" ++ b else b ++ "_" ++ a

/-- Helper for `splitUnderscore`: split a char list at a separator char. -/
def splitSepAux (sep : Char) (cur : List Char) : List Char → List (List Char)
  | [] => [cur.reverse]
  | c :: cs =>
      if c = sep then cur.reverse :: splitSepAux sep [] cs
      else splitSepAux sep (c :: cur) cs

/-- Model of `conversationId.split('_')`: the maximal `'_'`-free segments,
in order (always at least one, possibly empty, segment). -/
def splitUnderscore (s : String) : List String :=
  (splitSepAux '_' [] s.data).map (fun l => { data := l })

/-- The two process-wide maps of `src/config/socket.js`:
`onlineUsers : Map(userId -> socketId)` and
`activeConversations : Map(userId -> conversationId)`. -/
structure SocketState where
  onlineUsers : List (String × Nat)
  activeConversations : List (String × String)
deriving DecidableEq

/-- The empty initial state (both maps start empty at module load). -/
def initState : SocketState := ⟨[], []⟩

/-- Connection-lifecycle events handled in `src/config/socket.js`.
`connect` carries the authenticated `socket.userId` and `socket.id`;
`disconnect` carries the same (the handler only uses `socket.userId`);
`joinConversation` / `leaveConversation` carry the event payload's
`conversationId` together with the emitting socket's `userId`. -/
inductive ConnEvent where
  | connect (userId : String) (socketId : Nat)
  | disconnect (userId : String) (socketId : Nat)
  | joinConversation (userId : String) (conversationId : String)
  | leaveConversation (userId : String) (conversationId : String)
deriving DecidableEq

/-- State transition of the handlers in `src/config/socket.js`:
* connection handler: `onlineUsers.set(socket.userId, socket.id)`;
* `joinConversation`: `activeConversations.set(socket.userId, conversationId)`;
* `leaveConversation`: `activeConversations.delete(socket.userId)`
  (the payload's `conversationId` is not compared with the stored focus);
* `disconnect`: `onlineUsers.delete(socket.userId)` and
  `activeConversations.delete(socket.userId)` (the disconnecting
  `socket.id` plays no role). -/
def step (s : SocketState) : ConnEvent → SocketState
  | .connect u sid =>
      { s with onlineUsers := mapSet s.onlineUsers u sid }
  | .disconnect u _ =>
      { onlineUsers := mapDelete s.onlineUsers u,
        activeConversations := mapDelete s.activeConversations u }
  | .joinConversation u c =>
      { s with activeConversations := mapSet s.activeConversations u c }
  | .leaveConversation u _ =>
      { s with activeConversations := mapDelete s.activeConversations u }

/-- Run a sequence of connection-lifecycle events from the initial state. -/
def runEvents (es : List ConnEvent) : SocketState :=
  es.foldl step initState

/-- Broadcasts emitted to every connection (`io.emit`). -/
inductive Broadcast where
  | onlineList (ids : List String)
deriving DecidableEq

/-- Keys of an association map, in insertion order
(`Array.from(map.keys())`). -/
def mapKeys {β : Type} (m : List (String × β)) : List String := m.map (·.1)

/-- A connection attempt: the `io.use` middleware verifies the JWT
(`jwt.verify` outcome modelled as `auth`); on error it calls
`next(new Error(...))`, so the connection handler never runs and no state
changes; on success the connection handler stores the socket in
`onlineUsers` and broadcasts the updated `onlineUsers` key list. -/
def attemptConnection (s : SocketState) (auth : Except String String)
    (socketId : Nat) : SocketState × List Broadcast :=
  match auth with
  | .error _ => (s, [])
  | .ok userId =>
      let s' := step s (.connect userId socketId)
      (s', [.onlineList (mapKeys s'.onlineUsers)])

/-- The socket id of the most recent `connect` event for `u` that is not
followed by a later `disconnect` event for `u` — the claim's reading of
"the most recently authenticated connection for that identity". -/
def lastConn (u : String) (es : List ConnEvent) : Option Nat :=
  es.foldl
    (fun acc e =>
      match e with
      | .connect v sid => if v = u then some sid else acc
      | .disconnect v _ => if v = u then none else acc
      | _ => acc)
    none

/-- Durable `Message` document: the fields used by the message controller.
`_id` is a `Nat`, timestamps are `Nat`. `isRead` defaults to `false` and
`readAt` to absent on creation. -/
structure Message where
  id : Nat
  sender : String
  recipient : String
  messageText : Option String
  product : Option String
  image : Option String
  images : List String
  isRead : Bool
  readAt : Option Nat
  createdAt : Nat
deriving DecidableEq

/-- Socket events the REST controllers emit to a single socket id
(`io.to(socketId).emit(...)`). -/
inductive Emit where
  | newMessage (toSocket : Nat) (msg : Message) (conversationId : String)
  | messagesRead (toSocket : Nat) (readBy : String) (conversationId : String)
      (messageIds : List Nat)
  | messageDeleted (toSocket : Nat) (messageId : Nat)
deriving DecidableEq

/-- Whether an emitted event is a `messagesRead` event. -/
def Emit.isMessagesRead : Emit → Bool
  | .messagesRead _ _ _ _ => true
  | _ => false

/-- Record of a registered user as the email side-channel sees it
(`User.findById` result: `email` may be unset). -/
structure UserRec where
  name : String
  email : Option String
deriving DecidableEq

/-- Outcome of the `sendMessage` controller: the persisted message, the
socket events emitted, the error string logged by the email `catch` block
(if any), and the HTTP status of the response. -/
structure SendOutcome where
  message : Message
  emits : List Emit
  emailLog : Option String
  status : Nat
deriving DecidableEq

/-- The `sendMessage` controller (part_000 lines 341-436), given the current
socket maps, whether `req.app.get('io')` is set, the request fields, the
fresh document id and clock value, the `User.findById` results for recipient
and sender, and the outcome of the awaited `sendNewMessageEmail` call.
Durable persistence (`Message.create` / `message.save`) is assumed to
succeed — a rejection there would abort the handler before any later step.
Steps: create the message (`isRead` defaults to `false`; the `images` field
is the given array, else a one-element array holding `image`, which is then
also stored in `image`); compute `conversationId`; if the recipient's
`activeConversations` entry equals it, set `isRead = true` and `readAt`;
if `io` and the recipient is in `onlineUsers`, emit `newMessage` to the
recipient's socket, and — only inside that branch — if the message was
auto-read and the sender is online, emit `messagesRead` to the sender's
socket; finally try the email side-channel, logging (never rethrowing) its
error, and respond 201. -/
def sendMessage (st : SocketState) (ioPresent : Bool)
    (senderId recipient : String) (messageText : Option String)
    (product : Option String) (image : Option String)
    (images : Option (List String)) (newId : Nat) (now : Nat)
    (recipientUser senderUser : Option UserRec)
    (emailResult : Except String Unit) : SendOutcome :=
  let msg0 : Message :=
    { id := newId, sender := senderId, recipient := recipient,
      messageText := messageText, product := product,
      image := (match images, image with
                | some _, _ => none
                | none, some i => some i
                | none, none => none),
      images := (match images, image with
                 | some l, _ => l
                 | none, some i => [i]
                 | none, none => []),
      isRead := false, readAt := none, createdAt := now }
  let conversationId := convId senderId recipient
  let isRecipientViewingConversation :=
    mapGet st.activeConversations recipient = some conversationId
  let msg := if isRecipientViewingConversation then
    { msg0 with isRead := true, readAt := some now } else msg0
  let emits : List Emit :=
    if ioPresent then
      match mapGet st.onlineUsers recipient with
      | some recipientSocketId =>
          Emit.newMessage recipientSocketId msg conversationId ::
          (if isRecipientViewingConversation then
            match mapGet st.onlineUsers senderId with
            | some senderSocketId =>
                [Emit.messagesRead senderSocketId recipient conversationId
                  [msg.id]]
            | none => []
          else [])
      | none => []
    else []
  let emailLog : Option String :=
    match recipientUser with
    | some ru =>
        match ru.email, senderUser with
        | some _, some _ =>
            (match emailResult with
             | .ok _ => none
             | .error e => some e)
        | _, _ => none
    | none => none
  { message := msg, emits := emits, emailLog := emailLog, status := 201 }

/-- Modelled from the spec: the static `Message.markConversationAsRead`
lives in `src/models/Message.model.js`, which is not under src/. Per §4.6 it
"durably flips `isRead` on every unread message in that conversation
addressed to `readerId`, collecting affected message ids"; a message belongs
to the conversation whose id is the sorted join of its sender and recipient.
Returns the updated store and the affected ids. -/
def markConversationAsRead (msgs : List Message) (conversationId : String)
    (readerId : String) (now : Nat) : List Message × List Nat :=
  let affected := fun (m : Message) =>
    convId m.sender m.recipient = conversationId ∧
      m.recipient = readerId ∧ m.isRead = false
  (msgs.map (fun m =>
      if affected m then { m with isRead := true, readAt := some now } else m),
   (msgs.filter (fun m => decide (affected m))).map (·.id))

/-- Outcome of the `markAsRead` controller: updated message store, affected
ids, socket events emitted, HTTP status. -/
structure MarkReadOutcome where
  store : List Message
  messageIds : List Nat
  emits : List Emit
  status : Nat
deriving DecidableEq

/-- The `markAsRead` controller (part_000 lines 472-496): flip the unread
messages via `Message.markConversationAsRead`; then, if `io` is set, split
the conversation id on `'_'`, derive the other participant by exclusion
(`user1 === userId ? user2 : user1`), and if that participant is in
`onlineUsers`, emit `messagesRead` carrying the reader and the affected ids
— with no check that the affected-id list is non-empty. Responds 200. -/
def markAsRead (st : SocketState) (ioPresent : Bool) (msgs : List Message)
    (userId conversationId : String) (now : Nat) : MarkReadOutcome :=
  let r := markConversationAsRead msgs conversationId userId now
  let emits : List Emit :=
    if ioPresent then
      let parts := splitUnderscore conversationId
      let user1 := parts[0]?
      let user2 := parts[1]?
      let otherUserId := if user1 = some userId then user2 else user1
      match otherUserId with
      | some other =>
          (match mapGet st.onlineUsers other with
           | some senderSocketId =>
               [Emit.messagesRead senderSocketId userId conversationId r.2]
           | none => [])
      | none => []
    else []
  { store := r.1, messageIds := r.2, emits := emits, status := 200 }

/-- Outcome of the `deleteMessage` controller: the message store after the
request, socket events emitted, HTTP status (200, 403 or 404). -/
structure DeleteOutcome where
  store : List Message
  emits : List Emit
  status : Nat
deriving DecidableEq

/-- The `deleteMessage` controller (part_000 lines 440-468):
`Message.findById`; absent → `AppError 404` (store untouched, nothing
emitted); requester not the sender → `AppError 403` (store untouched,
nothing emitted); otherwise `message.deleteOne()` removes the document and,
if `io` is set and the message's recipient is online, a `messageDeleted`
event carrying only the id goes to that recipient's socket. Responds 200. -/
def deleteMessage (st : SocketState) (ioPresent : Bool) (msgs : List Message)
    (messageId : Nat) (userId : String) : DeleteOutcome :=
  match msgs.find? (fun m => m.id = messageId) with
  | none => { store := msgs, emits := [], status := 404 }
  | some message =>
      if message.sender ≠ userId then
        { store := msgs, emits := [], status := 403 }
      else
        let recipientId := message.recipient
        let store' := msgs.filter (fun m => ¬ m.id = messageId)
        let emits : List Emit :=
          if ioPresent then
            match mapGet st.onlineUsers recipientId with
            | some recipientSocketId =>
                [Emit.messageDeleted recipientSocketId messageId]
            | none => []
          else []
        { store := store', emits := emits, status := 200 }

end ChatCore

namespace ChatCore

theorem strLeChars_total (xs ys : List Char) :
    strLeChars xs ys = true ∨ strLeChars ys xs = true := by
  induction xs generalizing ys with
  | nil => left; rfl
  | cons c cs ih =>
    cases ys with
    | nil => right; rfl
    | cons d ds =>
      rcases Nat.lt_trichotomy c.toNat d.toNat with h | h | h
      · left; simp [strLeChars, h]
      · rcases ih ds with h2 | h2
        · left; simp [strLeChars, h, h2]
        · right; simp [strLeChars, h.symm, h2]
      · right; simp [strLeChars, h]

theorem strLeChars_antisymm (xs ys : List Char) (h1 : strLeChars xs ys = true)
    (h2 : strLeChars ys xs = true) : xs = ys := by
  induction xs generalizing ys with
  | nil =>
    cases ys with
    | nil => rfl
    | cons d ds => simp [strLeChars] at h2
  | cons c cs ih =>
    cases ys with
    | nil => simp [strLeChars] at h1
    | cons d ds =>
      rcases Nat.lt_trichotomy c.toNat d.toNat with h | h | h
      · simp [strLeChars, h, Nat.lt_asymm h] at h2
      · have hc : c = d := Char.ext (UInt32.ext h)
        subst hc
        simp [strLeChars] at h1 h2
        rw [ih ds h1 h2]
      · simp [strLeChars, h, Nat.lt_asymm h] at h1

/-- C1: the conversation identifier computed by the send path — sorting the
two participant identities with the JS string comparator and joining on
`'_'` — is symmetric in the two participants; it is the single definition
every producer in the embedding uses. -/
theorem convId_symm (a b : String) : convId a b = convId b a := by
  unfold convId
  by_cases h1 : strLeChars a.data b.data = true
  · by_cases h2 : strLeChars b.data a.data = true
    · have hdata : a.data = b.data := strLeChars_antisymm _ _ h1 h2
      have hab : a = b := by
        cases a
        cases b
        exact congrArg String.mk hdata
      subst hab
      simp
    · simp [h1, h2]
  · have h2 : strLeChars b.data a.data = true :=
      (strLeChars_total a.data b.data).resolve_left h1
    simp [h1, h2]

/-- C4 counterexample: identity `"u"` opens two simultaneous connections
(sockets 1 and 2) and focuses conversation `"a_u"`; after the first three
events it is online (handle 2, the overwrite) with that focus, yet
disconnecting only socket 1 — while socket 2 is still open — already removes
the presence entry and clears the focus, contradicting the claim that
presence and focus survive a partial disconnect. -/
theorem disconnect_one_of_two_clears_all :
    (mapGet (runEvents [.connect "u" 1, .joinConversation "u" "a_u",
        .connect "u" 2]).onlineUsers "u" = some 2 ∧
     mapGet (runEvents [.connect "u" 1, .joinConversation "u" "a_u",
        .connect "u" 2]).activeConversations "u" = some "a_u") ∧
    mapGet (runEvents [.connect "u" 1, .joinConversation "u" "a_u",
        .connect "u" 2, .disconnect "u" 1]).onlineUsers "u" = none ∧
    mapGet (runEvents [.connect "u" 1, .joinConversation "u" "a_u",
        .connect "u" 2, .disconnect "u" 1]).activeConversations "u" = none := by
  decide

/-- C4 amended: a disconnect event for an identity removes its presence
entry and clears its conversation focus unconditionally, whether or not
another simultaneous connection for that identity remains open — the
registry stores at most one handle per identity, so only the second half of
the original claim (disconnecting the last connection clears both) holds. -/
theorem disconnect_clears_presence_and_focus (st : SocketState)
    (u : String) (sid : Nat) :
    mapGet (step st (.disconnect u sid)).onlineUsers u = none ∧
    mapGet (step st (.disconnect u sid)).activeConversations u = none :=
  ⟨mapGet_mapDelete_self _ _, mapGet_mapDelete_self _ _⟩

/-- C5 counterexample: identity `"u"` currently focuses `"a_b"`; a stale
leave event naming the different conversation `"x_y"` nevertheless clears
the focus, contradicting the claim that focus is cleared only when the
event's conversation id equals the current focus. -/
theorem stale_leave_clears_focus :
    mapGet (SocketState.mk [("u", 1)] [("u", "a_b")]).activeConversations "u"
        = some "a_b" ∧
    ("a_b" : String) ≠ "x_y" ∧
    mapGet (step (SocketState.mk [("u", 1)] [("u", "a_b")])
        (.leaveConversation "u" "x_y")).activeConversations "u" = none := by
  decide

/-- C5 amended: a leave-conversation event clears the emitting identity's
focus unconditionally — the conversationId carried by the event is never
compared with the stored focus, so a stale leave clears whatever
conversation the identity currently views. -/
theorem leaveConversation_clears_focus_unconditionally (st : SocketState)
    (u c : String) :
    mapGet (step st (.leaveConversation u c)).activeConversations u = none :=
  mapGet_mapDelete_self _ _

/-- C9: when the credential presented at connection time fails verification,
the middleware rejects the attempt before the connection handler runs: the
presence registry and the focus tracker are unchanged and no
`onlineUsers` broadcast is emitted by that attempt. -/
theorem auth_failure_no_state_mutation (st : SocketState) (err : String)
    (sid : Nat) :
    (attemptConnection st (.error err) sid).1.onlineUsers = st.onlineUsers ∧
    (attemptConnection st (.error err) sid).1.activeConversations
        = st.activeConversations ∧
    (attemptConnection st (.error err) sid).2 = [] :=
  ⟨rfl, rfl, rfl⟩

theorem mapGet_step_connect (st : SocketState) (v : String) (sid : Nat)
    (u : String) :
    mapGet (step st (.connect v sid)).onlineUsers u =
      if v = u then some sid else mapGet st.onlineUsers u := by
  by_cases h : v = u
  · subst h
    simp [step, mapGet_mapSet_self]
  · simp [step, h, mapGet_mapSet_ne _ _ _ _ h]

theorem mapGet_step_disconnect (st : SocketState) (v : String) (sid : Nat)
    (u : String) :
    mapGet (step st (.disconnect v sid)).onlineUsers u =
      if v = u then none else mapGet st.onlineUsers u := by
  by_cases h : v = u
  · subst h
    simp [step, mapGet_mapDelete_self]
  · simp [step, h, mapGet_mapDelete_ne _ _ _ h]

theorem mapGet_foldl_step (es : List ConnEvent) (st : SocketState)
    (u : String) :
    mapGet (es.foldl step st).onlineUsers u =
      es.foldl
        (fun acc e =>
          match e with
          | .connect v sid => if v = u then some sid else acc
          | .disconnect v _ => if v = u then none else acc
          | _ => acc)
        (mapGet st.onlineUsers u) := by
  induction es generalizing st with
  | nil => rfl
  | cons e es ih =>
    rw [List.foldl_cons, List.foldl_cons, ih]
    cases e with
    | connect v sid => rw [mapGet_step_connect]
    | disconnect v sid => rw [mapGet_step_disconnect]
    | joinConversation v c => rfl
    | leaveConversation v c => rfl

theorem countKey_foldl_step (es : List ConnEvent) (st : SocketState)
    (u : String) (h : countKey st.onlineUsers u ≤ 1) :
    countKey ((es.foldl step st)).onlineUsers u ≤ 1 := by
  induction es generalizing st with
  | nil => exact h
  | cons e es ih =>
    rw [List.foldl_cons]
    refine ih (step st e) ?_
    cases e with
    | connect v sid =>
      have hb := countKey_mapSet st.onlineUsers v u sid
      simp only [step] at *
      omega
    | disconnect v sid =>
      have hb := countKey_mapDelete st.onlineUsers v u
      simp only [step] at *
      omega
    | joinConversation v c => exact h
    | leaveConversation v c => exact h

/-- C10: after any sequence of connection-lifecycle events the presence
registry holds at most one socket handle per identity — the handle of the
most recent connect for that identity not followed by one of its
disconnects (so a new connection for an already-online identity overwrites
the stored handle) — and every identity-targeted event emitted by the REST
paths (`newMessage`/`messagesRead` from `sendMessage`, `messagesRead` from
`markAsRead`, `messageDeleted` from `deleteMessage`) goes to a socket id
read from that registry, hence to at most one connection, the most recently
authenticated one for the target identity. -/
theorem rest_delivery_single_connection :
    (∀ es u, countKey (runEvents es).onlineUsers u ≤ 1 ∧
       mapGet (runEvents es).onlineUsers u = lastConn u es) ∧
    (∀ st b sId r mt pr im ims nid now ru su er t m c,
       Emit.newMessage t m c ∈
         (sendMessage st b sId r mt pr im ims nid now ru su er).emits →
       mapGet st.onlineUsers r = some t) ∧
    (∀ st b sId r mt pr im ims nid now ru su er t rb c ids,
       Emit.messagesRead t rb c ids ∈
         (sendMessage st b sId r mt pr im ims nid now ru su er).emits →
       mapGet st.onlineUsers sId = some t) ∧
    (∀ st b msgs uid cid now t rb c ids,
       Emit.messagesRead t rb c ids ∈
         (markAsRead st b msgs uid cid now).emits →
       ∃ other, mapGet st.onlineUsers other = some t) ∧
    (∀ st b msgs mid uid t i,
       Emit.messageDeleted t i ∈ (deleteMessage st b msgs mid uid).emits →
       ∃ rcp, mapGet st.onlineUsers rcp = some t) := by
  refine ⟨?_, ?_, ?_, ?_, ?_⟩
  · intro es u
    refine ⟨countKey_foldl_step es initState u ?_, ?_⟩
    · simp [initState, countKey]
    · exact mapGet_foldl_step es initState u
  · intro st b sId r mt pr im ims nid now ru su er t m c hmem
    simp only [sendMessage] at hmem
    split at hmem
    · split at hmem
      next rs hr =>
        simp only [List.mem_cons] at hmem
        rcases hmem with hmem | hmem
        · cases hmem
          exact hr
        · split at hmem
          · split at hmem
            · simp at hmem
            · simp at hmem
          · simp at hmem
      next hr => simp at hmem
    · simp at hmem
  · intro st b sId r mt pr im ims nid now ru su er t rb c ids hmem
    simp only [sendMessage] at hmem
    split at hmem
    · split at hmem
      next rs hr =>
        simp only [List.mem_cons] at hmem
        rcases hmem with hmem | hmem
        · cases hmem
        · split at hmem
          · split at hmem
            next ss hs =>
              simp only [List.mem_singleton] at hmem
              cases hmem
              exact hs
            next hs => simp at hmem
          · simp at hmem
      next hr => simp at hmem
    · simp at hmem
  · intro st b msgs uid cid now t rb c ids hmem
    simp only [markAsRead] at hmem
    split at hmem
    · split at hmem
      next other hother =>
        split at hmem
        next s hs =>
          simp only [List.mem_singleton] at hmem
          cases hmem
          exact ⟨other, hs⟩
        next hs => simp at hmem
      next hother => simp at hmem
    · simp at hmem
  · intro st b msgs mid uid t i hmem
    simp only [deleteMessage] at hmem
    split at hmem
    · simp at hmem
    · split at hmem
      · simp at hmem
      · split at hmem
        · split at hmem
          next s hs =>
            simp only [List.mem_singleton] at hmem
            cases hmem
            exact ⟨_, hs⟩
          next hs => simp at hmem
        · simp at hmem

/-- Witness for C10: the delivery-target implications instantiated at
concrete states and emitted events. -/
theorem rest_delivery_single_connection_witness :
    mapGet (SocketState.mk [("b", 2)] []).onlineUsers "b" = some 2 ∧
    mapGet (SocketState.mk [("a", 1), ("b", 2)]
      [("b", "a_b")]).onlineUsers "a" = some 1 ∧
    (∃ other, mapGet (SocketState.mk [("a", 7)] []).onlineUsers other
        = some 7) ∧
    (∃ rcp, mapGet (SocketState.mk [("b", 9)] []).onlineUsers rcp
        = some 9) := by
  refine ⟨?_, ?_, ?_, ?_⟩
  · exact rest_delivery_single_connection.2.1 ⟨[("b", 2)], []⟩ true "a" "b"
      (some "hi") none none none 1 0 none none (.ok ()) 2
      ⟨1, "a", "b", some "hi", none, none, [], false, none, 0⟩ "a_b"
      (by decide)
  · exact rest_delivery_single_connection.2.2.1
      ⟨[("a", 1), ("b", 2)], [("b", "a_b")]⟩ true "a" "b" (some "hi") none
      none none 1 0 none none (.ok ()) 1 "b" "a_b" [1] (by decide)
  · exact rest_delivery_single_connection.2.2.2.1 ⟨[("a", 7)], []⟩ true []
      "b" "a_b" 0 7 "b" "a_b" [] (by decide)
  · exact rest_delivery_single_connection.2.2.2.2 ⟨[("b", 9)], []⟩ true
      [⟨1, "a", "b", some "x", none, none, [], false, none, 0⟩] 1 "a" 9 1
      (by decide)

/-- C2 counterexample: recipient `"b"` has focus on `conversationId("a","b")`
while not present in `onlineUsers`, and sender `"a"` is online (socket 1);
the message is created with `isRead = true`, yet the send path emits nothing
at all — in particular no `messagesRead` event reaches the online sender,
because that emission sits inside the recipient-online branch. This refutes
the claim's "with no additional condition on the recipient's presence". -/
theorem sendMessage_focus_read_counterexample :
    mapGet (SocketState.mk [("a", 1)] [("b", "a_b")]).activeConversations "b"
        = some (convId "a" "b") ∧
    mapGet (SocketState.mk [("a", 1)] [("b", "a_b")]).onlineUsers "a"
        = some 1 ∧
    (sendMessage ⟨[("a", 1)], [("b", "a_b")]⟩ true "a" "b" (some "hi") none
        none none 7 100 none none (.ok ())).message.isRead = true ∧
    (sendMessage ⟨[("a", 1)], [("b", "a_b")]⟩ true "a" "b" (some "hi") none
        none none 7 100 none none (.ok ())).emits = [] := by
  decide

/-- C2 amended: when the recipient's focus equals the conversation id at the
moment of the send, the created message is persisted with `isRead = true`
and `readAt` set; the `messagesRead` event naming the recipient as reader
and carrying the message id is delivered to the sender's socket whenever
the socket layer is attached and BOTH the sender and the recipient are
online — the emission is nested inside the recipient-online delivery
branch, so the recipient's presence is an additional condition. -/
theorem sendMessage_focus_read (st : SocketState) (sId r : String)
    (mt pr im : Option String) (ims : Option (List String)) (nid now : Nat)
    (ru su : Option UserRec) (er : Except String Unit) (rs ss : Nat)
    (hfocus : mapGet st.activeConversations r = some (convId sId r))
    (hrec : mapGet st.onlineUsers r = some rs)
    (hsend : mapGet st.onlineUsers sId = some ss) :
    (sendMessage st true sId r mt pr im ims nid now ru su er).message.isRead
        = true ∧
    (sendMessage st true sId r mt pr im ims nid now ru su er).message.readAt
        = some now ∧
    Emit.messagesRead ss r (convId sId r) [nid] ∈
      (sendMessage st true sId r mt pr im ims nid now ru su er).emits := by
  simp only [sendMessage, hfocus, hrec, hsend]
  simp

/-- Witness for C2 (amended): both participants online, recipient focused on
the conversation. -/
theorem sendMessage_focus_read_witness :
    (sendMessage ⟨[("a", 1), ("b", 2)], [("b", "a_b")]⟩ true "a" "b"
        (some "hi") none none none 7 100 none none (.ok ())).message.isRead
        = true ∧
    (sendMessage ⟨[("a", 1), ("b", 2)], [("b", "a_b")]⟩ true "a" "b"
        (some "hi") none none none 7 100 none none (.ok ())).message.readAt
        = some 100 ∧
    Emit.messagesRead 1 "b" (convId "a" "b") [7] ∈
      (sendMessage ⟨[("a", 1), ("b", 2)], [("b", "a_b")]⟩ true "a" "b"
        (some "hi") none none none 7 100 none none (.ok ())).emits :=
  sendMessage_focus_read ⟨[("a", 1), ("b", 2)], [("b", "a_b")]⟩ "a" "b"
    (some "hi") none none none 7 100 none none (.ok ()) 2 1
    (by decide) (by decide) (by decide)

/-- C3: when the recipient's focus does not equal the conversation id, the
created message keeps `isRead = false` with no `readAt`, the send path
emits no `messagesRead` event, and any `newMessage` event it delivers
carries exactly that persisted message (hence the `isRead`/`readAt` values
of the focus decision) under the computed conversation id. -/
theorem sendMessage_no_focus (st : SocketState) (b : Bool) (sId r : String)
    (mt pr im : Option String) (ims : Option (List String)) (nid now : Nat)
    (ru su : Option UserRec) (er : Except String Unit)
    (hfocus : mapGet st.activeConversations r ≠ some (convId sId r)) :
    (sendMessage st b sId r mt pr im ims nid now ru su er).message.isRead
        = false ∧
    (sendMessage st b sId r mt pr im ims nid now ru su er).message.readAt
        = none ∧
    (∀ e ∈ (sendMessage st b sId r mt pr im ims nid now ru su er).emits,
       e.isMessagesRead = false) ∧
    (∀ t m c, Emit.newMessage t m c ∈
        (sendMessage st b sId r mt pr im ims nid now ru su er).emits →
       m = (sendMessage st b sId r mt pr im ims nid now ru su er).message ∧
       c = convId sId r) := by
  refine ⟨?_, ?_, ?_, ?_⟩
  · simp [sendMessage, hfocus]
  · simp [sendMessage, hfocus]
  · intro e he
    simp only [sendMessage, hfocus] at he
    split at he
    · split at he
      next rs hr =>
        simp only [if_neg hfocus, List.mem_cons] at he
        rcases he with he | he
        · subst he
          rfl
        · simp at he
      next hr => simp at he
    · simp at he
  · intro t m c hmem
    simp only [sendMessage, hfocus] at hmem ⊢
    split at hmem
    · split at hmem
      next rs hr =>
        simp only [if_neg hfocus, List.mem_cons] at hmem
        rcases hmem with hmem | hmem
        · cases hmem
          simp
        · simp at hmem
      next hr => simp at hmem
    · simp at hmem

/-- Witness for C3: recipient online but not focused on the conversation. -/
theorem sendMessage_no_focus_witness :
    (sendMessage ⟨[("b", 2)], []⟩ true "a" "b" (some "hi") none none none
        7 100 none none (.ok ())).message.isRead = false ∧
    (sendMessage ⟨[("b", 2)], []⟩ true "a" "b" (some "hi") none none none
        7 100 none none (.ok ())).message.readAt = none ∧
    (∀ e ∈ (sendMessage ⟨[("b", 2)], []⟩ true "a" "b" (some "hi") none none
        none 7 100 none none (.ok ())).emits, e.isMessagesRead = false) ∧
    (∀ t m c, Emit.newMessage t m c ∈
        (sendMessage ⟨[("b", 2)], []⟩ true "a" "b" (some "hi") none none
          none 7 100 none none (.ok ())).emits →
       m = (sendMessage ⟨[("b", 2)], []⟩ true "a" "b" (some "hi") none none
          none 7 100 none none (.ok ())).message ∧
       c = convId "a" "b") :=
  sendMessage_no_focus ⟨[("b", 2)], []⟩ true "a" "b" (some "hi") none none
    none 7 100 none none (.ok ()) (by decide)

/-- C8: the outcome of the send path — the persisted message, the live
events, and the 201 success response — does not depend on the result of the
email side-channel: a failing `sendNewMessageEmail` is caught and at most
logged, never rolled back into the operation's outcome. -/
theorem sendMessage_email_failure_swallowed (st : SocketState) (b : Bool)
    (sId r : String) (mt pr im : Option String) (ims : Option (List String))
    (nid now : Nat) (ru su : Option UserRec) (e1 e2 : Except String Unit) :
    (sendMessage st b sId r mt pr im ims nid now ru su e1).message
        = (sendMessage st b sId r mt pr im ims nid now ru su e2).message ∧
    (sendMessage st b sId r mt pr im ims nid now ru su e1).emits
        = (sendMessage st b sId r mt pr im ims nid now ru su e2).emits ∧
    (sendMessage st b sId r mt pr im ims nid now ru su e1).status = 201 ∧
    (sendMessage st b sId r mt pr im ims nid now ru su e2).status = 201 :=
  ⟨rfl, rfl, rfl, rfl⟩

theorem map_id_of_mem {α : Type} (l : List α) (f : α → α)
    (h : ∀ x ∈ l, f x = x) : l.map f = l := by
  induction l with
  | nil => rfl
  | cons a l ih =>
    rw [List.map_cons, h a (by simp), ih (fun x hx => h x (by simp [hx]))]

theorem filter_eq_nil_of_mem {α : Type} (l : List α) (p : α → Bool)
    (h : ∀ x ∈ l, p x = false) : l.filter p = [] := by
  induction l with
  | nil => rfl
  | cons a l ih =>
    rw [List.filter_cons, h a (by simp)]
    exact ih (fun x hx => h x (by simp [hx]))

/-- C6 counterexample: the single message of conversation `"a_b"` addressed
to reader `"b"` is already read, so `markConversationAsRead` touches nothing
and returns an empty affected-id set; the other participant `"a"` is online
(socket 7) — and the controller still emits a `messagesRead` event carrying
the empty id list, refuting "the empty affected-id set suppresses delivery". -/
theorem markAsRead_empty_still_emits :
    (markAsRead ⟨[("a", 7)], []⟩ true
        [⟨1, "a", "b", some "hi", none, none, [], true, some 5, 0⟩]
        "b" "a_b" 10).messageIds = [] ∧
    (markAsRead ⟨[("a", 7)], []⟩ true
        [⟨1, "a", "b", some "hi", none, none, [], true, some 5, 0⟩]
        "b" "a_b" 10).store
        = [⟨1, "a", "b", some "hi", none, none, [], true, some 5, 0⟩] ∧
    (markAsRead ⟨[("a", 7)], []⟩ true
        [⟨1, "a", "b", some "hi", none, none, [], true, some 5, 0⟩]
        "b" "a_b" 10).emits = [Emit.messagesRead 7 "b" "a_b" []] := by
  decide

/-- C6 amended: invoking `markAsRead` on a conversation with no unread
messages addressed to the reader performs no durable writes and returns an
empty affected-id set, but the empty set does NOT suppress delivery: any
event the controller emits is a `messagesRead` event carrying the empty id
list (and one is emitted whenever the socket layer is attached and the
derived other participant is online). -/
theorem markAsRead_idempotent (st : SocketState) (b : Bool)
    (msgs : List Message) (uid cid : String) (now : Nat)
    (h : ∀ m ∈ msgs, convId m.sender m.recipient = cid →
       m.recipient = uid → m.isRead = true) :
    (markAsRead st b msgs uid cid now).store = msgs ∧
    (markAsRead st b msgs uid cid now).messageIds = [] ∧
    (∀ e ∈ (markAsRead st b msgs uid cid now).emits,
       ∃ t, e = Emit.messagesRead t uid cid []) := by
  have hpred : ∀ m ∈ msgs,
      ¬ (convId m.sender m.recipient = cid ∧ m.recipient = uid ∧
         m.isRead = false) := by
    intro m hm hc
    have := h m hm hc.1 hc.2.1
    rw [this] at hc
    exact absurd hc.2.2 (by simp)
  have hids : (markConversationAsRead msgs cid uid now).2 = [] := by
    simp only [markConversationAsRead]
    rw [filter_eq_nil_of_mem]
    · rfl
    · intro m hm
      simpa using hpred m hm
  have hstore : (markConversationAsRead msgs cid uid now).1 = msgs := by
    simp only [markConversationAsRead]
    apply map_id_of_mem
    intro m hm
    rw [if_neg (hpred m hm)]
  refine ⟨hstore, hids, ?_⟩
  intro e he
  simp only [markAsRead] at he
  split at he
  · split at he
    next other hother =>
      split at he
      next s hs =>
        simp only [List.mem_singleton] at he
        subst he
        exact ⟨s, by rw [hids]⟩
      next hs => simp at he
    next hother => simp at he
  · simp at he

/-- Witness for C6 (amended): same already-read conversation as the
counterexample, with the other participant online. -/
theorem markAsRead_idempotent_witness :
    (markAsRead ⟨[("a", 7)], []⟩ true
        [⟨1, "a", "b", some "hi", none, none, [], true, some 5, 0⟩]
        "b" "a_b" 10).store
        = [⟨1, "a", "b", some "hi", none, none, [], true, some 5, 0⟩] ∧
    (markAsRead ⟨[("a", 7)], []⟩ true
        [⟨1, "a", "b", some "hi", none, none, [], true, some 5, 0⟩]
        "b" "a_b" 10).messageIds = [] ∧
    (∀ e ∈ (markAsRead ⟨[("a", 7)], []⟩ true
        [⟨1, "a", "b", some "hi", none, none, [], true, some 5, 0⟩]
        "b" "a_b" 10).emits, ∃ t, e = Emit.messagesRead t "b" "a_b" []) :=
  markAsRead_idempotent ⟨[("a", 7)], []⟩ true
    [⟨1, "a", "b", some "hi", none, none, [], true, some 5, 0⟩]
    "b" "a_b" 10 (by decide)

/-- C7: `deleteMessage` succeeds only for the message's sender: an unknown
(or already deleted) id yields a 404 with nothing deleted or emitted; a
requester other than the sender yields a 403 with nothing deleted or
emitted; the sender's request responds 200, hard-deletes exactly the named
record, and any emitted event is a `messageDeleted` carrying only the id,
sent to the other participant's registered socket — and is emitted whenever
the socket layer is attached and that participant is online. -/
theorem deleteMessage_spec (st : SocketState) (b : Bool)
    (msgs : List Message) (mid : Nat) (uid : String) :
    (msgs.find? (fun m => m.id = mid) = none →
       deleteMessage st b msgs mid uid
         = { store := msgs, emits := [], status := 404 }) ∧
    (∀ m, msgs.find? (fun m2 => m2.id = mid) = some m → m.sender ≠ uid →
       deleteMessage st b msgs mid uid
         = { store := msgs, emits := [], status := 403 }) ∧
    (∀ m, msgs.find? (fun m2 => m2.id = mid) = some m → m.sender = uid →
       (deleteMessage st b msgs mid uid).status = 200 ∧
       (∀ m2 ∈ (deleteMessage st b msgs mid uid).store, m2.id ≠ mid) ∧
       (∀ m2 ∈ msgs, m2.id ≠ mid →
          m2 ∈ (deleteMessage st b msgs mid uid).store) ∧
       (∀ e ∈ (deleteMessage st b msgs mid uid).emits,
          ∃ t, e = Emit.messageDeleted t mid ∧
            mapGet st.onlineUsers m.recipient = some t) ∧
       (b = true → ∀ t, mapGet st.onlineUsers m.recipient = some t →
          (deleteMessage st b msgs mid uid).emits
            = [Emit.messageDeleted t mid])) := by
  refine ⟨?_, ?_, ?_⟩
  · intro hfind
    simp [deleteMessage, hfind]
  · intro m hfind hsender
    simp [deleteMessage, hfind, hsender]
  · intro m hfind hsender
    have hne : ¬ m.sender ≠ uid := by simp [hsender]
    refine ⟨?_, ?_, ?_, ?_, ?_⟩
    · simp [deleteMessage, hfind, hne]
    · intro m2 hm2
      simp only [deleteMessage, hfind, if_neg hne] at hm2
      simp only [List.mem_filter, decide_not] at hm2
      simpa using hm2.2
    · intro m2 hm2 hne2
      simp only [deleteMessage, hfind, if_neg hne]
      simp only [List.mem_filter, decide_not]
      exact ⟨hm2, by simpa using hne2⟩
    · intro e he
      simp only [deleteMessage, hfind, if_neg hne] at he
      split at he
      · split at he
        next s hs =>
          simp only [List.mem_singleton] at he
          exact ⟨s, he, hs⟩
        next hs => simp at he
      · simp at he
    · intro hb t ht
      simp [deleteMessage, hfind, hne, hb, ht]

/-- Witness for C7: the three branches at concrete inputs — unknown id
gives 404, a non-sender gives 403 with the store intact, the sender gets
200 and the delete event reaches the recipient's socket. -/
theorem deleteMessage_spec_witness :
    deleteMessage ⟨[], []⟩ true [] 5 "u"
      = { store := [], emits := [], status := 404 } ∧
    deleteMessage ⟨[], []⟩ true
        [⟨1, "a", "b", some "x", none, none, [], false, none, 0⟩] 1 "b"
      = { store := [⟨1, "a", "b", some "x", none, none, [], false, none, 0⟩],
          emits := [], status := 403 } ∧
    (deleteMessage ⟨[("b", 9)], []⟩ true
        [⟨1, "a", "b", some "x", none, none, [], false, none, 0⟩] 1
        "a").status = 200 ∧
    (deleteMessage ⟨[("b", 9)], []⟩ true
        [⟨1, "a", "b", some "x", none, none, [], false, none, 0⟩] 1
        "a").emits = [Emit.messageDeleted 9 1] := by
  have h200 := (deleteMessage_spec ⟨[("b", 9)], []⟩ true
      [⟨1, "a", "b", some "x", none, none, [], false, none, 0⟩] 1 "a").2.2
      ⟨1, "a", "b", some "x", none, none, [], false, none, 0⟩
      (by decide) rfl
  refine ⟨?_, ?_, h200.1, h200.2.2.2.2 rfl 9 (by decide)⟩
  · exact (deleteMessage_spec ⟨[], []⟩ true [] 5 "u").1 rfl
  · exact (deleteMessage_spec ⟨[], []⟩ true
      [⟨1, "a", "b", some "x", none, none, [], false, none, 0⟩] 1 "b").2.1
      ⟨1, "a", "b", some "x", none, none, [], false, none, 0⟩
      (by decide) (by decide)

end ChatCore
